import Mathlib

/-!
Verification of the BlueFirmament task-routing core against its specification.

This file gives a shallow embedding, in Lean 4, of the parts of the
`blue_firmament` Python package that the spec's claims are about:

* `blue_firmament/task/main.py` — `TaskID` construction, matching
  (`is_match`, `__is_segment_match`), `fork`, `dump_to_str`,
  `load_from_str`, `__eq__`;
* `blue_firmament/task/registry.py` — `TaskEntry`, `TaskRegistry.add_entry`,
  `TaskRegistry.lookup`;
* `blue_firmament/scheme/converter.py` — `get_converter_from_anno`,
  `IntConverter.__call__`, `AnyConverter`, the `DictConverter` branch;
* `blue_firmament/task/handler.py` — `TaskHandler._parse_handler_kwargs`;
* `blue_firmament/core/middleware.py` — `run_middlewares` / `_get_next`;
* `blue_firmament/session/base.py` — `Session.is_expired`, `Session.upsert`.

Python strings are embedded as `List Char` (`Str`), Python dicts that the
embedded code uses as ordered key→value tables are embedded as association
lists in insertion order, and Python exceptions are embedded with `Except`.
Effectful code (the session pool, middleware execution) is embedded with
explicit state passing and, where evaluation order itself is the claim,
with explicit event traces in Python's strict left-to-right order.
-/

/-! ## Python string primitives

The embedded code uses `str.strip`, `str.split`, `str.replace` (single
character separators, which is how every call site in the embedded code
uses them), f-string concatenation and `int(str)`.
-/

/-- Python strings, embedded as their character lists. -/
abbrev Str : Type := List Char

/-- The character list of a Lean string literal. -/
def str (s : String) : Str := s.data

/-- `s.strip(c)` generalised to a predicate on characters:
drop matching characters from the front, then from the back. -/
def pyStripP (p : Char → Bool) (s : Str) : Str :=
  ((s.dropWhile p).reverse.dropWhile p).reverse

/-- Python `s.strip(c)` for a single-character strip set. -/
def pyStrip (c : Char) (s : Str) : Str :=
  pyStripP (fun x => x = c) s

/-- Python `s.replace(old, new)` for single characters. -/
def pyReplace (old new : Char) (s : Str) : Str :=
  s.map (fun x => if x = old then new else x)

/-- Python `s.split(c)` for a single-character separator: the runs between
separator occurrences, empty runs kept, never an empty result list
(`"".split('/') == [""]`). -/
def pySplit (c : Char) : Str → List Str
  | [] => [[]]
  | x :: xs =>
    match pySplit c xs with
    | [] => [[]]
    | y :: ys => if x = c then [] :: y :: ys else (x :: y) :: ys

/-- Python `s.split(c, maxsplit=1)` when the separator occurs: the part
before the first occurrence and everything after it; `none` when the
separator does not occur. -/
def pySplitOnce (c : Char) : Str → Option (Str × Str)
  | [] => none
  | x :: xs =>
    if x = c then some ([], xs)
    else (pySplitOnce c xs).map (fun p => (x :: p.1, p.2))

/-- Value of a decimal digit character. -/
def digitVal (c : Char) : Option Nat :=
  if '0' ≤ c ∧ c ≤ '9' then some (c.toNat - '0'.toNat) else none

/-- Digit tail of Python's `int(str)` grammar: decimal digits with single
underscores allowed between digits. -/
def pyDigitsAux : Str → Nat → Option Nat
  | [], acc => some acc
  | '_' :: c :: rest, acc =>
    match digitVal c with
    | some d => pyDigitsAux rest (acc * 10 + d)
    | none => none
  | ['_'], _ => none
  | c :: rest, acc =>
    match digitVal c with
    | some d => pyDigitsAux rest (acc * 10 + d)
    | none => none

/-- Nonempty digit run (first character must be a digit). -/
def pyDigits : Str → Option Nat
  | [] => none
  | c :: rest =>
    match digitVal c with
    | some d => pyDigitsAux rest d
    | none => none

/-- ASCII whitespace, the strip set of Python's `int(str)` conversion. -/
def isPyWs (c : Char) : Bool :=
  c = ' ' ∨ c = '\t' ∨ c = '\n' ∨ c = '\r'

/-- Python `int(s)` on a string: optional surrounding whitespace, optional
sign, then a digit run; `none` embeds the `ValueError`. -/
def pyIntOfStr (s : Str) : Option Int :=
  match pyStripP isPyWs s with
  | '+' :: rest => (pyDigits rest).map Int.ofNat
  | '-' :: rest => (pyDigits rest).map (fun n => -(Int.ofNat n : Int))
  | t => (pyDigits t).map Int.ofNat

/-! ## Python exceptions and the task status enum -/

/-- The task status enum (`blue_firmament/task/result.py`, `TaskStatus`). -/
inductive TaskStatus
  | OK | CREATED | NO_CONTENT | BAD_REQUEST | UNPROCESSABLE_ENTITY
  | UNAUTHORIZED | FORBIDDEN | NOT_FOUND | CONFLICT
  | UNAVAILABLE_FOR_LEGAL_REASONS | INTERNAL_SERVER_ERROR
  | NOT_IMPLEMENTED | SERVICE_UNAVAILABLE
deriving DecidableEq, Repr

/-- The Python exceptions the embedded code can raise. `bf st` stands for
any `BlueFirmamentException` whose `task_status` property is `st`
(`blue_firmament/exceptions.py`); the others are builtin exceptions, which
are *not* `BlueFirmamentException`s. -/
inductive PyExc
  | valueError
  | keyError
  | typeError
  | indexError
  | bf (st : TaskStatus)
deriving DecidableEq, Repr

/-- Is the exception a `BlueFirmamentException` (the only class the HTTP
transporter's `except` clause catches)? -/
def PyExc.isBF : PyExc → Bool
  | .bf _ => true
  | _ => false

/-! ## Converters (`blue_firmament/scheme/converter.py`)

Only the converter forms that the embedded framework paths reach are
embedded: `AnyConverter`, `IntConverter` and the `DictConverter` branch of
`get_converter_from_anno` (whose construction on a bare `dict` annotation
evaluates `typing.get_args(dict)[0]` on an empty tuple).
-/

/-- Converted parameter values. -/
inductive PyVal
  | vstr (s : Str)
  | vint (n : Int)
deriving DecidableEq, Repr

/-- Converter objects, by constructor arguments (first-order so that the
construction-time failure of `get_converter_from_anno` is separate from
call-time failures). -/
inductive Conv
  | anyC
  | intC (ge le : Option Int)
  | dictC (val : Conv)
deriving DecidableEq, Repr

/-- The annotation forms appearing in the embedded handler signatures and
path-parameter type maps: the `Task` and `TaskResult` classes, `int`, bare
`dict`, and parameterised `dict[..., v]`. `utils/type.py:get_origin`
returns a plain class unchanged. -/
inductive Anno
  | task
  | taskResult
  | int
  | dictBare
  | dictOf (v : Anno)
deriving DecidableEq, Repr

/-- `typing.get_args` on the embedded annotation forms (`()` on a bare
class such as `dict`). -/
def annoArgs : Anno → List Anno
  | .dictOf v => [v]
  | _ => []

/-- `get_converter_from_anno` (converter.py lines 104-173). A `Task` or
`TaskResult` annotation falls through every branch to `AnyConverter`;
`int` gives `IntConverter()` (both bounds `None`); a `dict` annotation
takes the `DictConverter(value_type=typing.get_args(tp)[0])` branch, which
raises `IndexError` when the annotation is the bare class `dict` because
`typing.get_args(dict)` is the empty tuple. -/
def getConverterFromAnno : Anno → Except PyExc Conv
  | .task => .ok .anyC
  | .taskResult => .ok .anyC
  | .int => .ok (.intC none none)
  | .dictBare => .error .indexError
  | .dictOf v => (getConverterFromAnno v).map .dictC

/-- `IntConverter.__call__` body applied to an already-converted integer:
the bound checks exactly as written (`res <= self.ge` and `res >= self.le`
raise `ValueError`). -/
def intConvCheck (ge le : Option Int) (res : Int) : Except PyExc PyVal :=
  if ge.elim false (fun g => decide (res ≤ g)) = true then .error .valueError
  else if le.elim false (fun l => decide (l ≤ res)) = true then .error .valueError
  else .ok (.vint res)

/-- Running a converter on a value (`BaseConverter.__call__` of the
embedded converter forms). `AnyConverter` returns the value unchanged.
`IntConverter` runs `int(value)` then the bound checks. `DictConverter`
called on a non-dict value always raises (its non-dict branch converts and
then unconditionally raises `ValueError`); the embedded values are never
dicts. -/
def applyConv : Conv → PyVal → Except PyExc PyVal
  | .anyC, v => .ok v
  | .intC ge le, .vstr s =>
    match pyIntOfStr s with
    | some n => intConvCheck ge le n
    | none => .error .valueError
  | .intC ge le, .vint n => intConvCheck ge le n
  | .dictC _, _ => .error .valueError

/-! ## TaskID (`blue_firmament/task/main.py`) -/

/-- The HTTP-like method enum (`task/main.py`, `Method`). -/
inductive Method
  | GET | POST | PUT | PATCH | DELETE | OPTIONS
deriving DecidableEq, Repr

/-- Value of `dump_enum` on an optional method (`None` dumps to the empty
part of the f-string in `TaskID.__str__`). -/
def dumpMethod : Option Method → Str
  | none => []
  | some .GET => str ("GET")
  | some .POST => str ("POST")
  | some .PUT => str ("PUT")
  | some .PATCH => str ("PATCH")
  | some .DELETE => str ("DELETE")
  | some .OPTIONS => str ("OPTIONS")

/-- `load_enum(Method, raw or None)` as used by `TaskID.load_from_str`:
the empty string is falsy and loads as `None` (wildcard); an unknown
non-empty value raises `ValueError`. -/
def loadMethod (s : Str) : Except PyExc (Option Method) :=
  if s = [] then .ok none
  else if s = str ("GET") then .ok (some .GET)
  else if s = str ("POST") then .ok (some .POST)
  else if s = str ("PUT") then .ok (some .PUT)
  else if s = str ("PATCH") then .ok (some .PATCH)
  else if s = str ("DELETE") then .ok (some .DELETE)
  else if s = str ("OPTIONS") then .ok (some .OPTIONS)
  else .error .valueError

/-- A parsed `TaskID`: the fields set by `TaskID.__init__`. `path` is the
normalized path (`path.replace(separator, '/').strip('/')`), `segments`
the split of the raw path with braces stripped at dynamic positions,
`dynamicIndices` the positions of `{name}` segments, `paramConverters`
the name → converter table. -/
structure TaskID where
  method : Option Method
  path : Str
  segments : List Str
  dynamicIndices : List Nat
  paramConverters : List (Str × Conv)
deriving DecidableEq, Repr

/-- Does a raw segment have the `{name}` form
(`segment.startswith('{') and segment.endswith('}')`)? -/
def isDynSeg (s : Str) : Bool :=
  s.head? = some '{' ∧ s.getLast? = some '}'

/-- Python `segment[1:-1]`. -/
def stripBraces (s : Str) : Str := (s.drop 1).dropLast

/-- The `__init__` loop over enumerated raw segments: brace-stripped
segments and the list of dynamic indices, in order. -/
def processSegs : List Str → Nat → List Str × List Nat
  | [], _ => ([], [])
  | s :: rest, i =>
    let r := processSegs rest (i + 1)
    if isDynSeg s then (stripBraces s :: r.1, i :: r.2) else (s :: r.1, r.2)

/-- Association-list lookup in a Python dict in insertion order. -/
def dictFind (l : List (Str × Conv)) (k : Str) : Option Conv :=
  match l with
  | [] => none
  | (k1, v) :: rest => if k1 = k then some v else dictFind rest k

/-- Python `d[k] = v` on an insertion-ordered dict: update in place when
the key exists, else append. -/
def dictSetParam (l : List (Str × PyVal)) (k : Str) (v : PyVal) : List (Str × PyVal) :=
  match l with
  | [] => [(k, v)]
  | (k1, v1) :: rest =>
    if k1 = k then (k1, v) :: rest else (k1, v1) :: dictSetParam rest k v

/-- `TaskID.__init__` with the `param_converters` argument (the path taken
by `fork` and `__getitem__`). Python treats an *empty* converters dict as
falsy and then rebuilds the table from `param_types` (here `None`), which
assigns `AnyConverter()` to every dynamic name. -/
def mkTaskIDWithConvs (m : Option Method) (raw : Str) (sep : Char)
    (convs : List (Str × Conv)) : TaskID :=
  let normPath := pyStrip '/' (pyReplace sep '/' raw)
  let rawSegs := pySplit sep (pyStrip sep raw)
  let sd := processSegs rawSegs 0
  let table :=
    if convs = [] then sd.2.map (fun i => (sd.1.getD i [], Conv.anyC))
    else convs
  ⟨m, normPath, sd.1, sd.2, table⟩

/-- `TaskID.__init__` with a `param_types` map and no `param_converters`:
each dynamic name's converter comes from `get_converter_from_anno` of its
declared type, or `AnyConverter()` when the name has no declared type.
The whole construction raises when `get_converter_from_anno` raises. -/
def mkTaskID (m : Option Method) (raw : Str) (sep : Char)
    (paramTypes : List (Str × Anno)) : Except PyExc TaskID :=
  let t := mkTaskIDWithConvs m raw sep []
  let rec buildTable : List Nat → Except PyExc (List (Str × Conv))
    | [] => .ok []
    | i :: rest => do
      let name := t.segments.getD i []
      let conv ←
        match (paramTypes.lookup name : Option Anno) with
        | some tp => getConverterFromAnno tp
        | none => .ok Conv.anyC
      let tail ← buildTable rest
      .ok ((name, conv) :: tail)
  do
    let table ← buildTable t.dynamicIndices
    .ok { t with paramConverters := table }

/-- A static candidate TaskID as transports build them:
`TaskID(method, path)` with the default separator and no parameter types. -/
def mkStaticTID (m : Method) (raw : Str) : TaskID :=
  mkTaskIDWithConvs (some m) raw '/' []

/-- `TaskID.is_dynamic`: dynamic iff it has path parameters or the method
is the wildcard `None`. -/
def TaskID.isDynamic (t : TaskID) : Bool :=
  t.dynamicIndices.length ≠ 0 ∨ t.method = none

/-- The three outcomes of `TaskID.__is_segment_match`: `_undefined`
(no match), `None` (static match), or a converted parameter value. -/
inductive SegRes
  | undef
  | stat
  | value (v : PyVal)
deriving DecidableEq, Repr

/-- `TaskID.__is_segment_match` (task/main.py lines 147-170). At a dynamic
index the converter for the parameter name runs on the candidate segment;
a missing converter raises `ValueError` out of the match, a converter
`ValueError` yields `_undefined`. At a static index the segments are
compared literally. -/
def TaskID.isSegmentMatch (t : TaskID) (toMatch : Str) (i : Nat) :
    Except PyExc SegRes :=
  if i ∈ t.dynamicIndices then
    let name := t.segments.getD i []
    match dictFind t.paramConverters name with
    | none => .error .valueError
    | some conv =>
      match applyConv conv (.vstr toMatch) with
      | .ok v => .ok (.value v)
      | .error .valueError => .ok .undef
      | .error e => .error e
  else .ok (if t.segments.getD i [] = toMatch then .stat else .undef)

/-- The `for i in range(len(task_id.segments))` loop of `is_match`,
walking the candidate's segments with their index. -/
def TaskID.matchLoop (t : TaskID) : List Str → Nat → List (Str × PyVal) →
    Except PyExc (Option (List (Str × PyVal)))
  | [], _, params => .ok (some params)
  | seg :: rest, i, params =>
    match t.isSegmentMatch seg i with
    | .error e => .error e
    | .ok .undef => .ok none
    | .ok .stat => t.matchLoop rest (i + 1) params
    | .ok (.value v) => t.matchLoop rest (i + 1) (dictSetParam params (t.segments.getD i []) v)

/-- `TaskID.is_match` (task/main.py lines 233-275), exactly as written:
method wildcard/equality check, segment-count check, then the guard
`if not len(self.__dynamic_indices) == 0:` — which, as coded, compares the
segment lists directly whenever there *are* dynamic indices (its comment
says the branch is for the case with *no* dynamic segments) — and
otherwise the element-wise loop. -/
def TaskID.isMatch (t other : TaskID) :
    Except PyExc (Option (List (Str × PyVal))) :=
  if t.method.isSome ∧ t.method ≠ other.method then .ok none
  else if t.segments.length ≠ other.segments.length then .ok none
  else if ¬ (t.dynamicIndices.length = 0) then
    .ok (if t.segments = other.segments then some [] else none)
  else t.matchLoop other.segments 0 []

/-- `TaskID.__eq__`: `self.is_match(other) is not None` (an exception from
`is_match` propagates). -/
def TaskID.eqPy (t other : TaskID) : Except PyExc Bool :=
  (t.isMatch other).map Option.isSome

/-- `TaskID.fork(path_prefix)` (task/main.py lines 172-186): a new TaskID
built from `f"{path_prefix}{self.__path}"` — plain string concatenation of
the prefix and the *normalized* path, no separator inserted — with the
default separator and this TaskID's converter table. A falsy (empty)
prefix leaves the path alone. -/
def TaskID.fork (t : TaskID) (p : Str) : TaskID :=
  mkTaskIDWithConvs t.method (if p = [] then t.path else p ++ t.path) '/' t.paramConverters

/-- `TaskID.dump_to_str` = `__str__` =
`f"{dump_enum(self.method) or ''}@{self.path}"`. -/
def TaskID.dumpToStr (t : TaskID) : Str :=
  dumpMethod t.method ++ '@' :: t.path

/-- `TaskID.load_from_str`: split on the first `'@'` (raising when there
is none), load the method (empty → wildcard), and construct with the
default separator and no parameter types. -/
def loadFromStr (raw : Str) : Except PyExc TaskID :=
  match pySplitOnce '@' raw with
  | none => .error .valueError
  | some (m, p) => do
    let om ← loadMethod m
    .ok (mkTaskIDWithConvs om p '/' [])

/-! ## TaskEntry and TaskRegistry (`blue_firmament/task/registry.py`)

Handlers are opaque at the registry level; the embedding identifies each
bound handler by a number. The static table is a Python dict keyed by
`TaskID` objects; for the static keys it holds, its `hash`/`__eq__`
membership test is equivalent to equality of `(method, segments)` (the
hash is `hash((method, *segments))` and `__eq__` between two static
TaskIDs is `is_match`, i.e. method equality plus element-wise segment
equality), so the embedding keys the table by that predicate.
-/

/-- A task entry: a TaskID bound to handlers, plus the path parameters set
on lookup copies (`TaskEntry.__init__` sets them to `{}`). -/
structure TaskEntry where
  tid : TaskID
  handlers : List Nat
  pathParams : List (Str × PyVal)
deriving DecidableEq, Repr

/-- `TaskEntry.fork`: fork the TaskID, keep the handlers, fresh empty
path parameters. -/
def TaskEntry.fork (e : TaskEntry) (p : Str) : TaskEntry :=
  ⟨e.tid.fork p, e.handlers, []⟩

/-- Dict-key equivalence of static TaskIDs (see the section comment). -/
def tidKeyEq (a b : TaskID) : Bool :=
  a.method = b.method ∧ a.segments = b.segments

/-- Lookup in the static table (`dict.get`). -/
def findStatic (l : List (TaskID × TaskEntry)) (t : TaskID) : Option TaskEntry :=
  match l with
  | [] => none
  | (k, e) :: rest => if tidKeyEq k t then some e else findStatic rest t

/-- `d[key] = value` on the static table: replace in place or append. -/
def setStatic (l : List (TaskID × TaskEntry)) (k : TaskID) (e : TaskEntry) :
    List (TaskID × TaskEntry) :=
  match l with
  | [] => [(k, e)]
  | (k1, e1) :: rest =>
    if tidKeyEq k1 k then (k1, e) :: rest else (k1, e1) :: setStatic rest k e

/-- A task registry: static table, dynamic list (insertion order) and the
registry's path prefix string. -/
structure TaskRegistry where
  staticEntries : List (TaskID × TaskEntry)
  dynamicEntries : List TaskEntry
  prefixPath : Str
deriving DecidableEq, Repr

/-- `TaskRegistry.add_entry`: fork the entry with the registry's path
prefix, then store it in the static table or append it to the dynamic
list according to `is_dynamic`. -/
def TaskRegistry.addEntry (r : TaskRegistry) (e : TaskEntry) : TaskRegistry :=
  let e := e.fork r.prefixPath
  if ¬ e.tid.isDynamic then
    { r with staticEntries := setStatic r.staticEntries e.tid e }
  else
    { r with dynamicEntries := r.dynamicEntries ++ [e] }

/-- The dynamic-list scan of `lookup`: first entry whose TaskID matches is
shallow-copied with the parameter map attached; exhaustion raises
`KeyError`. -/
def lookupDyn (t : TaskID) : List TaskEntry → Except PyExc TaskEntry
  | [] => .error .keyError
  | e :: rest =>
    match e.tid.isMatch t with
    | .error err => .error err
    | .ok (some ps) => .ok { e with pathParams := ps }
    | .ok none => lookupDyn t rest

/-- `TaskRegistry.lookup` (registry.py lines 232-262): reject dynamic
lookups with `TypeError`; probe the static table; then scan the dynamic
list; raise `KeyError` on exhaustion. -/
def TaskRegistry.lookup (r : TaskRegistry) (t : TaskID) : Except PyExc TaskEntry :=
  if t.isDynamic then .error .typeError
  else
    match findStatic r.staticEntries t with
    | some e => .ok e
    | none => lookupDyn t r.dynamicEntries

/-! ## Task handling over HTTP (`core/app.py`, `transport/http/main.py`)

`BlueFirmamentApp.handle_task` looks the task up in the transporter's
registry and then runs the middleware chain; the chain run is abstracted
as a continuation so the lookup error path is exact. The HTTP transporter
wraps `handle_task` in `except BlueFirmamentException as e:` which sets
the task result status from `e.task_status`; any other exception
propagates out of the transporter call. The final wire status code is
`TStatus2HCode[task_result.status]` (`transport/http/base.py`).
-/

/-- `TStatus2HCode`, exactly as the dict is written (note it has no key
for `NOT_IMPLEMENTED` or `SERVICE_UNAVAILABLE`, and it maps `FORBIDDEN`
to 401 and `UNAUTHORIZED` to 403). -/
def tstatus2hcode : TaskStatus → Option Nat
  | .OK => some 200
  | .NO_CONTENT => some 204
  | .CREATED => some 201
  | .BAD_REQUEST => some 400
  | .CONFLICT => some 409
  | .FORBIDDEN => some 401
  | .NOT_FOUND => some 404
  | .UNAUTHORIZED => some 403
  | .UNPROCESSABLE_ENTITY => some 422
  | .UNAVAILABLE_FOR_LEGAL_REASONS => some 451
  | .INTERNAL_SERVER_ERROR => some 500
  | _ => none

/-- `handle_task`: registry lookup, then the middleware-chain run
(abstracted as `run`, which yields the task result's final status or
raises). -/
def handleTask (run : TaskEntry → Except PyExc TaskStatus)
    (r : TaskRegistry) (t : TaskID) : Except PyExc TaskStatus :=
  (r.lookup t).bind run

/-- What reaches the wire for one HTTP task. -/
inductive HTTPOutcome
  | response (code : Nat)
  | uncaught (e : PyExc)
deriving DecidableEq, Repr

/-- The HTTP transporter around `handle_task`
(transport/http/main.py lines 270-276 and the response send): a
`BlueFirmamentException` is caught and its `task_status` becomes the
result status; every other exception propagates uncaught. A status
missing from `TStatus2HCode` would raise `KeyError` during the send. -/
def httpHandle (run : TaskEntry → Except PyExc TaskStatus)
    (r : TaskRegistry) (t : TaskID) : HTTPOutcome :=
  match handleTask run r t with
  | .ok st =>
    match tstatus2hcode st with
    | some c => .response c
    | none => .uncaught .keyError
  | .error (.bf st) =>
    match tstatus2hcode st with
    | some c => .response c
    | none => .uncaught .keyError
  | .error e => .uncaught e

/-! ## Handler parameter plan (`blue_firmament/task/handler.py`)

`TaskHandler._parse_handler_kwargs` walks the function signature once at
wrap time. For every non-receiver parameter it *first* computes
`get_converter_from_anno(annotation)` and then classifies the parameter
(`Task` → context task, `TaskResult` → context result, otherwise a
by-name getter over path parameters then task parameters).
-/

/-- Where a handler parameter's value comes from. -/
inductive KwGetter
  | fromTask
  | fromTaskResult
  | byName (name : Str) (conv : Conv)
deriving DecidableEq, Repr

/-- `_parse_handler_kwargs` (handler.py lines 118-137) over an embedded
signature: a list of (parameter name, annotation) in declaration order. -/
def parseHandlerKwargs : List (Str × Anno) → Except PyExc (List (Str × KwGetter))
  | [] => .ok []
  | (name, anno) :: rest =>
    if name = str ("self") ∨ name = str ("cls") then parseHandlerKwargs rest
    else do
      let conv ← getConverterFromAnno anno
      let g : KwGetter :=
        if anno = .task then .fromTask
        else if anno = .taskResult then .fromTaskResult
        else .byName name conv
      let tail ← parseHandlerKwargs rest
      .ok ((name, g) :: tail)

/-! ## Middleware chain (`blue_firmament/core/middleware.py`, `TaskEntry.__call__`)

`run_middlewares` invokes `middlewares[0]` with a `next` continuation;
`_get_next(ms, ctx, current)` builds the continuation that, when awaited,
invokes `ms[current+1]` with the continuation for the following position,
and returns `None` immediately past the end of the list. Everything is
awaited in place on one cooperative scheduler, so an execution is a
sequence of events. A generic middleware is embedded by the events of its
pre-phase (before awaiting `next`) and its post-phase (after `next`
returns); `TaskEntry.__call__` is the terminal middleware: it schedules
all its handlers, joins them with `asyncio.gather`, writes the aggregated
body into the task result, and only then awaits `next`.
-/

/-- Observable events of one middleware-chain execution. -/
inductive MwEv
  | pre (i : Nat)
  | post (i : Nat)
  | handler (h : Nat)
  | joinHandlers
  | setBody
deriving DecidableEq, Repr

/-- A middleware in the chain: either a generic middleware with its
pre-phase and post-phase event lists, or a `TaskEntry` with its handler
identifiers. -/
inductive MwSpec
  | generic (preW postW : List MwEv)
  | entry (hs : List Nat)
deriving DecidableEq, Repr

/-- Run one middleware given the trace its awaited `next()` produces.
A generic middleware runs its pre-phase, awaits `next`, then runs its
post-phase. A `TaskEntry` gathers its handlers (each scheduled, then all
joined), sets the task result body, then awaits `next` as its last
action. -/
def mwRun : MwSpec → List MwEv → List MwEv
  | .generic preW postW, nextT => preW ++ nextT ++ postW
  | .entry hs, nextT => hs.map .handler ++ [.joinHandlers, .setBody] ++ nextT

/-- The trace of running the chain from a position: `_get_next`'s
recursion, which runs the middleware at the next position with the
continuation for the positions after it and returns immediately (an empty
trace) past the end of the list. -/
def chainFrom : List MwSpec → List MwEv
  | [] => []
  | m :: rest => mwRun m (chainFrom rest)

/-- `BaseMiddleware.run_middlewares`: `middlewares[0]` with the chain
continuation (an empty list raises `IndexError` at `middlewares[0]`). -/
def runMiddlewares : List MwSpec → Except PyExc (List MwEv)
  | [] => .error .indexError
  | m :: rest => .ok (mwRun m (chainFrom rest))

/-! ## Session pool (`blue_firmament/session/base.py`)

A session field is embedded by its two observable bits: whether
`is_expired()` currently reports true, and whether it still reports true
after `refresh()`. `Session.is_expired` walks the fields, refreshing each
field that reports expired and returning `True` early when one is still
expired after its refresh — mutating the fields it touched. The pool is
the class-level dict `__session_pool__`, embedded as an insertion-ordered
association list. `upsert` is embedded with an explicit event trace in
Python's strict evaluation order: the `setdefault` *default argument*
`cls(_id, **fields_getter())` is evaluated before the pool is consulted.
-/

/-- `SESSION_POOL_MAX` (session/base.py line 76). -/
def SESSION_POOL_MAX : Nat := 1000

/-- `REMOVE_BATCH_SIZE` (session/base.py line 74). -/
def REMOVE_BATCH_SIZE : Nat := 10

/-- One session field, by its expiry observables. -/
structure SessionField where
  expiredNow : Bool
  expiredAfterRefresh : Bool
deriving DecidableEq, Repr

/-- `SessionField.refresh`: afterwards the field reports
`expiredAfterRefresh`. -/
def SessionField.refresh (f : SessionField) : SessionField :=
  ⟨f.expiredAfterRefresh, f.expiredAfterRefresh⟩

/-- A session: its id, fields, and `last_used_at`. -/
structure Session where
  sid : Str
  fields : List SessionField
  lastUsedAt : Nat
deriving DecidableEq, Repr

/-- The field walk of `Session.is_expired`: refresh each field that
reports expired; return `True` early (leaving later fields untouched)
when a field is still expired after refresh. Returns the verdict and the
mutated field list. -/
def isExpiredFields : List SessionField → Bool × List SessionField
  | [] => (false, [])
  | f :: rest =>
    if f.expiredNow then
      let f1 := f.refresh
      if f1.expiredNow then (true, f1 :: rest)
      else
        let r := isExpiredFields rest
        (r.1, f1 :: r.2)
    else
      let r := isExpiredFields rest
      (r.1, f :: r.2)

/-- `Session.is_expired`, with the mutation it performs on the session's
fields. -/
def Session.isExpired (s : Session) : Bool × Session :=
  let r := isExpiredFields s.fields
  (r.1, { s with fields := r.2 })

/-- The session pool: `id → Session` in insertion order. -/
abbrev Pool : Type := List (Str × Session)

/-- Dict lookup in the pool. -/
def poolFind (l : Pool) (k : Str) : Option Session :=
  match l with
  | [] => none
  | (k1, v) :: rest => if k1 = k then some v else poolFind rest k

/-- `del pool[id]`. -/
def poolErase (l : Pool) (k : Str) : Pool :=
  l.filter (fun p => ¬ p.1 = k)

/-- Write back a mutated session object under its key (the pool holds the
same object Python mutates in place). -/
def poolWrite (l : Pool) (k : Str) (s : Session) : Pool :=
  l.map (fun p => if p.1 = k then (k, s) else p)

/-- Evaluation-order events of one `upsert` call. -/
inductive UEv
  | getterCall
  | poolConsult
  | poolDelete
deriving DecidableEq, Repr

/-- Result of `Session.upsert`: the returned session, the pool afterwards,
and the evaluation-order event trace. -/
structure UpsertOut where
  ret : Session
  pool : Pool
  events : List UEv
deriving DecidableEq, Repr

/-- `Session.upsert` (session/base.py lines 152-170), in Python's strict
evaluation order. `cls(_id, **fields_getter())` — the *default* argument
of `setdefault` — is evaluated first, every call. Then `setdefault`
consults the pool: on a hit it returns the stored session and drops the
candidate; on a miss it stores the candidate. If the resulting session
`is_expired()` (which refreshes fields in place), it is deleted from the
pool and a *second* `cls(_id, **fields_getter())` is built and returned —
without being stored. Finally `update_last_used_at` runs on the returned
session (in place, so a pooled session's entry reflects it). -/
def Session.upsert (pool : Pool) (id : Str) (g : Unit → List SessionField)
    (now : Nat) : UpsertOut :=
  let cand : Session := ⟨id, g (), now⟩
  let hit := poolFind pool id
  let afterSetdefault : Session × Pool :=
    match hit with
    | some s => (s, pool)
    | none => (cand, pool ++ [(id, cand)])
  let s := afterSetdefault.1
  let pool1 := afterSetdefault.2
  let e := s.isExpired
  if e.1 then
    let fresh : Session := ⟨id, g (), now⟩
    ⟨fresh, poolErase pool1 id, [.getterCall, .poolConsult, .poolDelete, .getterCall]⟩
  else
    let s1 := { e.2 with lastUsedAt := now }
    ⟨s1, poolWrite pool1 id s1, [.getterCall, .poolConsult]⟩

/-! ## Concrete instances used by the claims -/

/-- The parameter name `id`. -/
def idStr : Str := str ("id")

/-- The pattern TaskID `GET /users/{id}` with `id: int`, as
`TaskID(Method.GET, "/users/{id}", param_types={"id": int})` builds it. -/
def usersIdPat : TaskID :=
  mkTaskIDWithConvs (some .GET) (str ("/users/{id}")) '/'
    [(idStr, Conv.intC none none)]

/-- The candidate `GET /users/42`. -/
def cand42 : TaskID := mkStaticTID .GET (str ("/users/42"))

/-- The candidate `GET /users/abc`. -/
def candAbc : TaskID := mkStaticTID .GET (str ("/users/abc"))

/-- A registry (empty prefix) holding one dynamic entry: `usersIdPat`
bound to handler `0`. -/
def usersReg : TaskRegistry :=
  TaskRegistry.addEntry ⟨[], [], []⟩ ⟨usersIdPat, [0], []⟩

/-- The pattern TaskID `POST /items/{id}` with `id: int`. -/
def itemsPat : TaskID :=
  mkTaskIDWithConvs (some .POST) (str ("/items/{id}")) '/'
    [(idStr, Conv.intC none none)]

/-- The handler signature `(task: Task, id: int, body: dict)`. -/
def demoSig : List (Str × Anno) :=
  [(str ("task"), Anno.task), (idStr, Anno.int), (str ("body"), Anno.dictBare)]

/-- The static TaskID `GET /users`. -/
def usersTID : TaskID := mkStaticTID .GET (str ("/users"))

/-- A registry with `path_prefix = "/v1"` to which the `GET /users` entry
is added via `add_entry`. -/
def v1Reg : TaskRegistry :=
  TaskRegistry.addEntry ⟨[], [], str ("/v1")⟩ ⟨usersTID, [0], []⟩

/-! ## C1 — dynamic matching: the inverted guard -/

/-- C1. The claim states `P.is_match(C)` succeeds iff the method matches,
the segment counts agree, and every position matches statically or by
converter. The code violates this: for `P = GET /users/{id}` (`id: int`)
and `C = GET /users/42` all three conditions hold — the method and length
agree and `IntConverter` accepts `"42"` (producing the integer 42) — yet
`is_match` returns `None`, because the guard
`if not len(self.__dynamic_indices) == 0:` takes the direct
segment-comparison branch exactly when there *are* dynamic indices
(its own comment says the branch is for "no dynamic segments"), and
`["users", "id"] != ["users", "42"]`. This theorem evaluates the embedded
code at that failing input. -/
theorem c1_is_match_guard_inverted :
    mkTaskID (some .GET) (str ("/users/{id}")) '/' [(idStr, Anno.int)]
        = Except.ok usersIdPat
    ∧ usersIdPat.method = cand42.method
    ∧ usersIdPat.segments.length = cand42.segments.length
    ∧ applyConv (Conv.intC none none) (PyVal.vstr (str ("42")))
        = Except.ok (PyVal.vint 42)
    ∧ usersIdPat.isMatch cand42 = Except.ok none := by
  exact ⟨rfl, rfl, rfl, rfl, rfl⟩

/-! ## C2 — dynamic registry lookup -/

/-- C2. The claim states looking up `GET /users/42` in a registry holding
the dynamic entry `GET /users/{id}` (`id: int`, handler `h`) returns a
copy of the entry with path-params `{id: 42}`, and looking up
`GET /users/abc` fails not-found. In the code both lookups raise
`KeyError`: the dynamic entry never matches any candidate because of the
inverted guard in `is_match` (see C1). This theorem evaluates the embedded
registry at both inputs. -/
theorem c2_dynamic_lookup_never_matches :
    usersReg.dynamicEntries = [⟨usersIdPat, [0], []⟩]
    ∧ usersReg.lookup cand42 = Except.error PyExc.keyError
    ∧ usersReg.lookup candAbc = Except.error PyExc.keyError := by
  exact ⟨rfl, rfl, rfl⟩

/-! ## C3 — handler parameter injection -/

/-- C3. The claim describes executing a handler `(task: Task, id: int,
body: dict)` for `POST /items/7` under registry pattern `/items/{id}`
(`id: int`), resolving `task`, `id = 7`, `body`, with result body
`Json({"a":1})`. The code fails before any such execution, twice over:
(i) `_parse_handler_kwargs` computes
`get_converter_from_anno(dict)`, which evaluates
`typing.get_args(dict)[0]` on an empty tuple and raises `IndexError`, so
the `TaskHandler` cannot even be constructed with a bare-`dict` `body`
parameter; and (ii) the pattern `/items/{id}` never matches `/items/7`
(inverted guard, see C1), so the lookup that would produce `{id: 7}`
raises `KeyError`. This theorem evaluates both failure points. -/
theorem c3_handler_injection_unreachable :
    parseHandlerKwargs demoSig = Except.error PyExc.indexError
    ∧ itemsPat.isMatch (mkStaticTID .POST (str ("/items/7"))) = Except.ok none
    ∧ TaskRegistry.lookup
        (TaskRegistry.addEntry ⟨[], [], []⟩ ⟨itemsPat, [0], []⟩)
        (mkStaticTID .POST (str ("/items/7")))
        = Except.error PyExc.keyError := by
  exact ⟨rfl, rfl, rfl⟩

/-! ## C4 — fork with a path prefix -/

/-- C4. The claim states `t.fork(p)` prepends `p`'s segments to `t`'s
segments, so that an entry `GET /users` added to a registry with
`path_prefix = "/v1"` is stored under the two-segment `GET /v1/users` and
found there. In the code `fork` concatenates the prefix and the
*normalized* path as plain strings with no separator:
`"/v1" + "users" = "/v1users"`, one segment. The entry is therefore stored
under the single-segment TaskID `GET v1users`, lookup of `GET /v1/users`
raises `KeyError`, and only the merged-segment `GET /v1users` finds it.
This theorem evaluates the embedded code at that input. -/
theorem c4_fork_concatenates_without_separator :
    (usersTID.fork (str ("/v1"))).segments = [str ("v1users")]
    ∧ v1Reg.lookup (mkStaticTID .GET (str ("/v1/users")))
        = Except.error PyExc.keyError
    ∧ v1Reg.lookup (mkStaticTID .GET (str ("/v1users")))
        = Except.ok ⟨usersTID.fork (str ("/v1")), [0], []⟩ := by
  exact ⟨rfl, rfl, rfl⟩

/-! ## C5 — registry miss over HTTP -/

/-- C5 (amended). When registry lookup of a static TaskID finds no entry,
`TaskRegistry.lookup` raises a plain `KeyError` — not the framework's
`NotFound` exception. A `KeyError` is not a `BlueFirmamentException`, so
the HTTP transporter's `except BlueFirmamentException` clause does not
catch it: a registry miss while handling an HTTP task surfaces as an
uncaught exception out of the transporter, not as a 404 task result. -/
theorem c5_registry_miss_is_uncaught_keyerror
    (run : TaskEntry → Except PyExc TaskStatus)
    (r : TaskRegistry) (t : TaskID)
    (h : r.lookup t = Except.error PyExc.keyError) :
    httpHandle run r t = HTTPOutcome.uncaught PyExc.keyError
    ∧ httpHandle run r t ≠ HTTPOutcome.response 404 := by
  have h1 : httpHandle run r t = HTTPOutcome.uncaught PyExc.keyError := by
    unfold httpHandle handleTask
    rw [h]
    rfl
  exact ⟨h1, by rw [h1]; exact fun hc => nomatch hc⟩

/-- C5 witness: the empty registry misses `GET /x`; the theorem applies
with the hypothesis discharged by evaluation. -/
theorem c5_witness :
    httpHandle (fun _ => Except.ok TaskStatus.OK) ⟨[], [], []⟩
        (mkStaticTID .GET (str ("/x")))
      = HTTPOutcome.uncaught PyExc.keyError := by
  exact (c5_registry_miss_is_uncaught_keyerror
    (fun _ => Except.ok TaskStatus.OK) ⟨[], [], []⟩
    (mkStaticTID .GET (str ("/x"))) rfl).1

/-- C5 counterexample to the claim as stated: at the concrete miss
(empty registry, task `GET /x`) the code neither raises the framework's
not-found error nor produces a 404 task result — the outcome on the wire
path is an uncaught `KeyError`, and `KeyError` is not a
`BlueFirmamentException` carrying `NOT_FOUND`. -/
theorem c5_counterexample :
    TaskRegistry.lookup ⟨[], [], []⟩ (mkStaticTID .GET (str ("/x")))
        = Except.error PyExc.keyError
    ∧ PyExc.isBF PyExc.keyError = false
    ∧ httpHandle (fun _ => Except.ok TaskStatus.OK) ⟨[], [], []⟩
        (mkStaticTID .GET (str ("/x")))
        ≠ HTTPOutcome.response 404 := by
  exact ⟨rfl, rfl, fun hc => nomatch hc⟩

/-! ## C6 — pool size after upsert -/

/-- Erasing never grows the pool. -/
theorem poolErase_length_le (l : Pool) (k : Str) :
    (poolErase l k).length ≤ l.length :=
  List.length_filter_le _ l

/-- Writing back preserves the pool's length. -/
theorem poolWrite_length (l : Pool) (k : Str) (s : Session) :
    (poolWrite l k s).length = l.length :=
  List.length_map l _

/-- C6 (amended). `Session.upsert` performs no eviction at all — it never
calls `cleanup_sessions`, where the expiry/inactivity sweep and the
`REMOVE_BATCH_SIZE` batch removal live. One `upsert` grows the pool by at
most one entry, with no upper bound enforced: nothing keeps the pool at
or below `SESSION_POOL_MAX`. -/
theorem c6_upsert_no_eviction (pool : Pool) (id : Str)
    (g : Unit → List SessionField) (now : Nat) :
    (Session.upsert pool id g now).pool.length ≤ pool.length + 1 := by
  unfold Session.upsert
  cases hfind : poolFind pool id with
  | some s =>
    simp only [hfind]
    by_cases he : (s.isExpired).1 = true
    · rw [if_pos he]
      exact le_trans (poolErase_length_le pool id) (Nat.le_succ _)
    · rw [if_neg he]
      show (poolWrite pool id _).length ≤ _
      rw [poolWrite_length]
      exact Nat.le_succ _
  | none =>
    simp only [hfind]
    by_cases he : ((⟨id, g (), now⟩ : Session).isExpired).1 = true
    · rw [if_pos he]
      refine le_trans (poolErase_length_le _ id) ?_
      simp
    · rw [if_neg he]
      show (poolWrite _ id _).length ≤ _
      rw [poolWrite_length]
      simp

/-- Pool keys of the counterexample pool. -/
def poolKey (n : Nat) : Str := 'k' :: (Nat.repr n).data

/-- A pool of `n` live sessions (no fields, so never expired). -/
def mkPool : Nat → Pool
  | 0 => []
  | n + 1 => (poolKey n, ⟨poolKey n, [], 0⟩) :: mkPool n

/-- The fresh key of the counterexample. -/
def newKey : Str := str ("new")

theorem mkPool_length (n : Nat) : (mkPool n).length = n := by
  induction n with
  | zero => rfl
  | succ n ih => simp [mkPool, ih]

theorem poolKey_ne_newKey (n : Nat) : poolKey n ≠ newKey := by
  intro h
  have : 'k' = 'n' := List.head_eq_of_cons_eq h
  exact absurd this (by decide)

theorem poolFind_mkPool_newKey (n : Nat) : poolFind (mkPool n) newKey = none := by
  induction n with
  | zero => rfl
  | succ n ih => simp [mkPool, poolFind, poolKey_ne_newKey n, ih]

/-- C6 counterexample to the claim as stated: a pool already holding
`SESSION_POOL_MAX = 1000` live sessions, upserted with a fresh id, ends at
1001 entries when `upsert` returns — no batch of `REMOVE_BATCH_SIZE`
oldest entries is evicted and the `SESSION_POOL_MAX` bound is exceeded. -/
theorem c6_counterexample :
    SESSION_POOL_MAX = 1000
    ∧ (Session.upsert (mkPool 1000) newKey (fun _ => []) 0).pool.length = 1001
    ∧ SESSION_POOL_MAX
        < (Session.upsert (mkPool 1000) newKey (fun _ => []) 0).pool.length := by
  have hfind := poolFind_mkPool_newKey 1000
  have hlen : (Session.upsert (mkPool 1000) newKey (fun _ => []) 0).pool.length = 1001 := by
    unfold Session.upsert
    simp only [hfind]
    have hexp : ¬ (((⟨newKey, (fun (_ : Unit) => ([] : List SessionField)) (), 0⟩ : Session).isExpired).1 = true) :=
      fun hc => nomatch hc
    rw [if_neg hexp]
    show (poolWrite _ newKey _).length = 1001
    rw [poolWrite_length, List.length_append, mkPool_length]
    rfl
  exact ⟨rfl, hlen, by rw [hlen]; decide⟩

/-! ## C7 — upsert of an expired session -/

/-- After `del pool[id]`, the pool holds no entry under `id`. -/
theorem poolFind_poolErase (l : Pool) (k : Str) :
    poolFind (poolErase l k) k = none := by
  induction l with
  | nil => rfl
  | cons p rest ih =>
    by_cases hk : p.1 = k
    · simpa [poolErase, hk] using ih
    · simpa [poolErase, poolFind, hk] using ih

/-- C7 (amended). When the pooled session under `id` is expired (a field
still reports expired after its refresh), `upsert` deletes it from the
pool, calls the fields getter again, builds a fresh session and returns
it — but it does *not* store the fresh session: after the call the pool
has no entry under `id` at all (neither the old instance nor the returned
fresh one). -/
theorem c7_expired_session_not_restored (pool : Pool) (id : Str)
    (g : Unit → List SessionField) (now : Nat) (s : Session)
    (hfind : poolFind pool id = some s)
    (hexp : (s.isExpired).1 = true) :
    (Session.upsert pool id g now).ret = ⟨id, g (), now⟩
    ∧ poolFind (Session.upsert pool id g now).pool id = none
    ∧ (Session.upsert pool id g now).events
        = [UEv.getterCall, UEv.poolConsult, UEv.poolDelete, UEv.getterCall] := by
  unfold Session.upsert
  simp only [hfind]
  rw [if_pos hexp]
  exact ⟨rfl, poolFind_poolErase pool id, rfl⟩

/-- A concrete expired session: its one field reports expired both before
and after `refresh()`. -/
def expiredSess : Session := ⟨str ("a"), [⟨true, true⟩], 0⟩

/-- C7 witness: the theorem applied to the one-entry pool holding the
expired session, hypotheses discharged by evaluation. -/
theorem c7_witness :
    (Session.upsert [(str ("a"), expiredSess)] (str ("a")) (fun _ => []) 3).ret
        = ⟨str ("a"), [], 3⟩
    ∧ poolFind (Session.upsert [(str ("a"), expiredSess)] (str ("a"))
        (fun _ => []) 3).pool (str ("a")) = none := by
  have h := c7_expired_session_not_restored [(str ("a"), expiredSess)]
    (str ("a")) (fun _ => []) 3 expiredSess rfl rfl
  exact ⟨h.1, h.2.1⟩

/-- C7 counterexample to the claim as stated: for the concrete pool
holding the expired session `S` under `"a"`, after `upsert` the pool does
*not* contain the returned fresh session — it has no entry under `"a"` —
although the fresh session is built (the getter runs a second time) and
returned. -/
theorem c7_counterexample :
    (expiredSess.isExpired).1 = true
    ∧ (Session.upsert [(str ("a"), expiredSess)] (str ("a")) (fun _ => []) 3).ret
        = ⟨str ("a"), [], 3⟩
    ∧ (Session.upsert [(str ("a"), expiredSess)] (str ("a")) (fun _ => []) 3).pool
        = [] := by
  exact ⟨rfl, rfl, rfl⟩

/-! ## C10 — eager evaluation of the fields getter -/

/-- C10. On *every* call of `Session.upsert`, the `setdefault` default
argument `cls(_id, **fields_getter())` is evaluated before the pool is
consulted — Python evaluates arguments eagerly — so the fields getter
runs (with whatever I/O or side effects it performs) even on a cache hit.
The first two events of every call are the getter call followed by the
pool consultation; and on a hit with a live session, the session that
comes back is the cached one (refreshed in place, `last_used_at`
updated), not the candidate, with no further getter call. -/
theorem c10_getter_runs_on_every_upsert (pool : Pool) (id : Str)
    (g : Unit → List SessionField) (now : Nat) :
    (Session.upsert pool id g now).events.take 2 = [UEv.getterCall, UEv.poolConsult]
    ∧ (∀ s, poolFind pool id = some s → (s.isExpired).1 = false →
        (Session.upsert pool id g now).ret
            = { (s.isExpired).2 with lastUsedAt := now }
          ∧ (Session.upsert pool id g now).events
            = [UEv.getterCall, UEv.poolConsult]) := by
  constructor
  · unfold Session.upsert
    cases hfind : poolFind pool id with
    | some s =>
      by_cases he : (s.isExpired).1 = true
      · rw [if_pos he]; rfl
      · rw [if_neg he]; rfl
    | none =>
      by_cases he : ((⟨id, g (), now⟩ : Session).isExpired).1 = true
      · rw [if_pos he]; rfl
      · rw [if_neg he]; rfl
  · intro s hfind hlive
    unfold Session.upsert
    simp only [hfind]
    rw [if_neg (by rw [hlive]; exact fun hc => nomatch hc)]
    exact ⟨rfl, rfl⟩

/-- A concrete live session in the pool. -/
def liveSess : Session := ⟨str ("a"), [], 5⟩

/-- C10 witness: at the one-entry live pool the getter is still the first
event, and the cached session (with updated `last_used_at`) is returned. -/
theorem c10_witness :
    (Session.upsert [(str ("a"), liveSess)] (str ("a")) (fun _ => []) 9).events.take 2
        = [UEv.getterCall, UEv.poolConsult]
    ∧ (Session.upsert [(str ("a"), liveSess)] (str ("a")) (fun _ => []) 9).ret
        = ⟨str ("a"), [], 9⟩ := by
  have h := c10_getter_runs_on_every_upsert [(str ("a"), liveSess)]
    (str ("a")) (fun _ => []) 9
  exact ⟨h.1, (h.2 liveSess rfl rfl).1⟩

/-! ## C8 — middleware ordering -/

/-- Running the chain continuation over a block of generic middlewares
followed by any tail: the pre-phases appear first in list order, then the
tail's trace, then the post-phases in reverse list order. -/
theorem chainFrom_generic_block (gens : List (List MwEv × List MwEv))
    (tail : List MwSpec) :
    chainFrom (gens.map (fun g => MwSpec.generic g.1 g.2) ++ tail)
      = (gens.map Prod.fst).flatten ++ chainFrom tail
          ++ (gens.reverse.map Prod.snd).flatten := by
  induction gens with
  | nil => simp [chainFrom]
  | cons p gens ih =>
    have h1 : chainFrom ((p :: gens).map (fun g => MwSpec.generic g.1 g.2) ++ tail)
        = p.1 ++ chainFrom (gens.map (fun g => MwSpec.generic g.1 g.2) ++ tail)
            ++ p.2 := rfl
    rw [h1, ih]
    simp [List.flatten_append, List.append_assoc]

/-- C8. For every chain `[m_1, ..., m_k, entry]` of generic middlewares
closed by a `TaskEntry`, `run_middlewares` produces: the pre-phases of
`m_1 ... m_k` in list order, then the entry's handlers all scheduled and
joined (`asyncio.gather`) and the result body written — all before the
entry awaits its `next` — then the post-phases in exactly reverse order
`m_k ... m_1`. The second conjunct is the sentinel: the continuation past
the end of the middleware list returns immediately, contributing no
events. -/
theorem c8_middleware_onion (gens : List (List MwEv × List MwEv))
    (hs : List Nat) :
    runMiddlewares (gens.map (fun g => MwSpec.generic g.1 g.2)
        ++ [MwSpec.entry hs])
      = Except.ok ((gens.map Prod.fst).flatten
          ++ (hs.map MwEv.handler ++ [MwEv.joinHandlers, MwEv.setBody])
          ++ (gens.reverse.map Prod.snd).flatten)
    ∧ chainFrom [] = [] := by
  refine ⟨?_, rfl⟩
  cases gens with
  | nil => simp [runMiddlewares, mwRun, chainFrom]
  | cons p gens =>
    have h1 : runMiddlewares ((p :: gens).map (fun g => MwSpec.generic g.1 g.2)
          ++ [MwSpec.entry hs])
        = Except.ok (p.1
            ++ chainFrom (gens.map (fun g => MwSpec.generic g.1 g.2)
                ++ [MwSpec.entry hs]) ++ p.2) := rfl
    rw [h1, chainFrom_generic_block]
    have h2 : chainFrom [MwSpec.entry hs]
        = hs.map MwEv.handler ++ [MwEv.joinHandlers, MwEv.setBody] := by
      simp [chainFrom, mwRun]
    rw [h2]
    simp [List.flatten_append, List.append_assoc]

/-! ## C9 — string round-trip of static TaskIDs -/

theorem dropWhile_head_not (p : Char → Bool) (l : Str) (c : Char) (t : Str)
    (h : l.dropWhile p = c :: t) : p c = false := by
  induction l with
  | nil => exact absurd h (by simp)
  | cons x xs ih =>
    by_cases hx : p x = true
    · rw [List.dropWhile_cons, if_pos hx] at h
      exact ih h
    · rw [List.dropWhile_cons, if_neg hx] at h
      cases h
      exact Bool.eq_false_iff.mpr hx

theorem dropWhile_dropWhile (p : Char → Bool) (l : Str) :
    (l.dropWhile p).dropWhile p = l.dropWhile p := by
  cases h : l.dropWhile p with
  | nil => rfl
  | cons c t =>
    rw [List.dropWhile_cons, if_neg]
    rw [dropWhile_head_not p l c t h]
    exact fun hc => nomatch hc

theorem exists_dropWhile_append (p : Char → Bool) (l : Str) :
    ∃ w, w ++ l.dropWhile p = l := by
  induction l with
  | nil => exact ⟨[], rfl⟩
  | cons x xs ih =>
    by_cases hx : p x = true
    · obtain ⟨w, hw⟩ := ih
      exact ⟨x :: w, by rw [List.dropWhile_cons, if_pos hx, List.cons_append, hw]⟩
    · exact ⟨[], by rw [List.dropWhile_cons, if_neg hx]; rfl⟩

theorem dropWhile_append_self (p : Char → Bool) (v w : Str)
    (h : (v ++ w).dropWhile p = v ++ w) : v.dropWhile p = v := by
  cases v with
  | nil => rfl
  | cons c t =>
    by_cases hc : p c = true
    · exfalso
      rw [List.cons_append, List.dropWhile_cons, if_pos hc] at h
      have hle : (List.dropWhile p (t ++ w)).length ≤ (t ++ w).length :=
        (List.dropWhile_suffix p).length_le
      rw [h] at hle
      simp at hle
    · rw [List.dropWhile_cons, if_neg hc]

/-- Python `strip` is idempotent. -/
theorem pyStripP_idem (p : Char → Bool) (s : Str) :
    pyStripP p (pyStripP p s) = pyStripP p s := by
  unfold pyStripP
  set u := s.dropWhile p with hu
  have hback : ∀ x : Str, x.dropWhile p = x →
      (((x.reverse.dropWhile p).reverse).dropWhile p) = (x.reverse.dropWhile p).reverse := by
    intro x hx
    obtain ⟨w, hw⟩ := exists_dropWhile_append p x.reverse
    have hxv : (x.reverse.dropWhile p).reverse ++ w.reverse = x := by
      rw [← List.reverse_append, hw, List.reverse_reverse]
    refine dropWhile_append_self p _ w.reverse ?_
    rw [hxv, hx]
  have hu2 : u.dropWhile p = u := dropWhile_dropWhile p s
  rw [hback u hu2]
  rw [List.reverse_reverse, dropWhile_dropWhile]

theorem pyStrip_idem (c : Char) (s : Str) :
    pyStrip c (pyStrip c s) = pyStrip c s :=
  pyStripP_idem _ s

theorem pyReplace_self (c : Char) (s : Str) : pyReplace c c s = s := by
  induction s with
  | nil => rfl
  | cons x xs ih =>
    unfold pyReplace at *
    by_cases hx : x = c <;> simp [hx, ih]

theorem processSegs_of_no_dynamic (l : List Str) (i : Nat)
    (h : (processSegs l i).2 = []) : (processSegs l i).1 = l := by
  induction l generalizing i with
  | nil => rfl
  | cons s rest ih =>
    by_cases hd : isDynSeg s = true
    · exfalso
      have : (processSegs (s :: rest) i).2 = i :: (processSegs rest (i + 1)).2 := by
        simp [processSegs, hd]
      rw [this] at h
      exact absurd h (by simp)
    · have h2 : (processSegs (s :: rest) i).2 = (processSegs rest (i + 1)).2 := by
        simp [processSegs, hd]
      have h1 : (processSegs (s :: rest) i).1 = s :: (processSegs rest (i + 1)).1 := by
        simp [processSegs, hd]
      rw [h2] at h
      rw [h1, ih (i + 1) h]

theorem pySplitOnce_append (c : Char) (a b : Str) (ha : c ∉ a) :
    pySplitOnce c (a ++ c :: b) = some (a, b) := by
  induction a with
  | nil => simp [pySplitOnce]
  | cons x xs ih =>
    have hx : ¬ x = c := fun hc => ha (hc ▸ List.mem_cons_self x xs)
    have ihx := ih (fun hm => ha (List.mem_cons_of_mem x hm))
    simp [pySplitOnce, hx, ihx]

theorem at_not_mem_dumpMethod (m : Option Method) : '@' ∉ dumpMethod m := by
  cases m with
  | none => simp [dumpMethod]
  | some mm => cases mm <;> decide

theorem loadMethod_dumpMethod (m : Option Method) :
    loadMethod (dumpMethod m) = Except.ok m := by
  cases m with
  | none => rfl
  | some mm => cases mm <;> rfl

theorem getD_of_drop {α : Type} [Inhabited α] (l : List α) (i : Nat)
    (seg : α) (rest : List α) (h : l.drop i = seg :: rest) :
    l.getD i default = seg := by
  induction i generalizing l with
  | zero =>
    rw [List.drop_zero] at h
    rw [h]
    rfl
  | succ i ih =>
    cases l with
    | nil => exact absurd h (by simp)
    | cons x xs =>
      rw [List.drop_succ_cons] at h
      exact ih xs h

theorem drop_succ_of_drop {α : Type} (l : List α) (i : Nat)
    (seg : α) (rest : List α) (h : l.drop i = seg :: rest) :
    l.drop (i + 1) = rest := by
  induction i generalizing l with
  | zero =>
    rw [List.drop_zero] at h
    rw [h]
    rfl
  | succ i ih =>
    cases l with
    | nil => exact absurd h (by simp)
    | cons x xs =>
      rw [List.drop_succ_cons] at h
      rw [List.drop_succ_cons]
      exact ih xs h

/-- When a TaskID has no dynamic indices, the `is_match` loop over a
candidate whose segments agree position-by-position (here: the remaining
candidate segments are this TaskID's segments from position `i` on)
succeeds with the parameter map it was given. -/
theorem matchLoop_static (t : TaskID) (h0 : t.dynamicIndices = []) :
    ∀ (segs : List Str) (i : Nat) (params : List (Str × PyVal)),
      t.segments.drop i = segs →
      t.matchLoop segs i params = Except.ok (some params) := by
  intro segs
  induction segs with
  | nil => intro i params _; rfl
  | cons seg rest ih =>
    intro i params hdrop
    have hmem : ¬ i ∈ t.dynamicIndices := by rw [h0]; simp
    have hgetD : t.segments.getD i [] = seg := getD_of_drop _ _ _ _ hdrop
    have hseg : t.isSegmentMatch seg i = Except.ok SegRes.stat := by
      unfold TaskID.isSegmentMatch
      rw [if_neg hmem, hgetD, if_pos rfl]
    show (match t.isSegmentMatch seg i with
      | .error e => Except.error e
      | .ok .undef => Except.ok none
      | .ok .stat => t.matchLoop rest (i + 1) params
      | .ok (.value v) =>
        t.matchLoop rest (i + 1) (dictSetParam params (t.segments.getD i []) v))
      = Except.ok (some params)
    rw [hseg]
    exact ih (i + 1) params (drop_succ_of_drop _ _ _ _ hdrop)

/-- C9 (amended). For every TaskID built with the *default* separator
`'/'` — whatever its method, raw path and converter table — that has no
dynamic segments, `load_from_str(dump_to_str())` yields a TaskID that
compares equal (`__eq__`, i.e. `is_match` succeeds): the dumped form is
`method@normalized-path`, the method string round-trips through
`load_enum`, the normalized path re-normalizes to itself (strip is
idempotent), and the reloaded segment list is identical, so the all-static
match succeeds with an empty parameter map. -/
theorem c9_roundtrip_default_separator (m : Option Method) (raw : Str)
    (convs : List (Str × Conv))
    (hstat : (mkTaskIDWithConvs m raw '/' convs).dynamicIndices = []) :
    (loadFromStr (mkTaskIDWithConvs m raw '/' convs).dumpToStr).bind
        (fun r => r.eqPy (mkTaskIDWithConvs m raw '/' convs))
      = Except.ok true := by
  have hstat0 : (processSegs (pySplit '/' (pyStrip '/' raw)) 0).2 = [] := hstat
  have hpath : (mkTaskIDWithConvs m raw '/' convs).path = pyStrip '/' raw := by
    show pyStrip '/' (pyReplace '/' '/' raw) = pyStrip '/' raw
    rw [pyReplace_self]
  have hsegs : (mkTaskIDWithConvs m raw '/' convs).segments
      = pySplit '/' (pyStrip '/' raw) := by
    show (processSegs (pySplit '/' (pyStrip '/' raw)) 0).1 = _
    exact processSegs_of_no_dynamic _ _ hstat0
  have hdump : (mkTaskIDWithConvs m raw '/' convs).dumpToStr
      = dumpMethod m ++ '@' :: pyStrip '/' raw := by
    show dumpMethod m ++ '@' :: (mkTaskIDWithConvs m raw '/' convs).path = _
    rw [hpath]
  have hload : loadFromStr (mkTaskIDWithConvs m raw '/' convs).dumpToStr
      = Except.ok (mkTaskIDWithConvs m (pyStrip '/' raw) '/' []) := by
    rw [hdump]
    unfold loadFromStr
    rw [pySplitOnce_append '@' (dumpMethod m) (pyStrip '/' raw) (at_not_mem_dumpMethod m)]
    show (do
        let om ← loadMethod (dumpMethod m)
        Except.ok (mkTaskIDWithConvs om (pyStrip '/' raw) '/' []))
      = Except.ok (mkTaskIDWithConvs m (pyStrip '/' raw) '/' [])
    rw [loadMethod_dumpMethod]
    rfl
  have hstrip2 : pyStrip '/' (pyStrip '/' raw) = pyStrip '/' raw :=
    pyStrip_idem '/' raw
  have hrsegs : (mkTaskIDWithConvs m (pyStrip '/' raw) '/' []).segments
      = (mkTaskIDWithConvs m raw '/' convs).segments := by
    show (processSegs (pySplit '/' (pyStrip '/' (pyStrip '/' raw))) 0).1 = _
    rw [hstrip2, hsegs]
    exact processSegs_of_no_dynamic _ _ hstat0
  have hrdyn : (mkTaskIDWithConvs m (pyStrip '/' raw) '/' []).dynamicIndices = [] := by
    show (processSegs (pySplit '/' (pyStrip '/' (pyStrip '/' raw))) 0).2 = []
    rw [hstrip2]
    exact hstat0
  have hmatch : (mkTaskIDWithConvs m (pyStrip '/' raw) '/' []).isMatch
      (mkTaskIDWithConvs m raw '/' convs) = Except.ok (some []) := by
    unfold TaskID.isMatch
    rw [if_neg (fun hc => hc.2 rfl)]
    rw [if_neg (by rw [hrsegs]; exact fun hc => hc rfl)]
    rw [if_neg (by rw [hrdyn]; exact fun hc => hc rfl)]
    exact matchLoop_static _ hrdyn _ 0 [] (by rw [List.drop_zero, hrsegs])
  rw [hload]
  show (mkTaskIDWithConvs m (pyStrip '/' raw) '/' []).eqPy
      (mkTaskIDWithConvs m raw '/' convs) = Except.ok true
  unfold TaskID.eqPy
  rw [hmatch]
  rfl

/-- C9 witness: the static TaskID `GET /users/all` round-trips, the
staticness hypothesis discharged by evaluation. -/
theorem c9_witness :
    (loadFromStr (mkTaskIDWithConvs (some .GET) (str ("/users/all")) '/' []).dumpToStr).bind
        (fun r => r.eqPy (mkTaskIDWithConvs (some .GET) (str ("/users/all")) '/' []))
      = Except.ok true :=
  c9_roundtrip_default_separator (some .GET) (str ("/users/all")) [] rfl

/-- C9 counterexample to the claim over *every* TaskID with no dynamic
segments: `TaskID(Method.GET, "a/b.c", separator='.')` has the two
segments `["a/b", "c"]` and no dynamic indices, but its normalized path
replaces the separator by `/`, giving `"a/b/c"`; reloading the dump
`"GET@a/b/c"` produces three segments, so the segment counts differ and
equality fails in both directions. -/
theorem c9_counterexample :
    (mkTaskIDWithConvs (some .GET) (str ("a/b.c")) '.' []).dynamicIndices = []
    ∧ (mkTaskIDWithConvs (some .GET) (str ("a/b.c")) '.' []).segments
        = [str ("a/b"), str ("c")]
    ∧ loadFromStr (mkTaskIDWithConvs (some .GET) (str ("a/b.c")) '.' []).dumpToStr
        = Except.ok (mkTaskIDWithConvs (some .GET) (str ("a/b/c")) '/' [])
    ∧ (mkTaskIDWithConvs (some .GET) (str ("a/b/c")) '/' []).eqPy
        (mkTaskIDWithConvs (some .GET) (str ("a/b.c")) '.' []) = Except.ok false
    ∧ (mkTaskIDWithConvs (some .GET) (str ("a/b.c")) '.' []).eqPy
        (mkTaskIDWithConvs (some .GET) (str ("a/b/c")) '/' []) = Except.ok false := by
  exact ⟨rfl, rfl, rfl, rfl, rfl⟩
